import Mathlib

/-!
Verification of the routing and dispatch core of `static-host`
(`src/main.rs`), a small HTTP edge server that serves local directories or
forwards requests to an upstream origin according to a prefix-rule
configuration.

The Rust code is shallowly embedded:

* Rust `String` / `str` values are Lean `String`s; the byte-level
  operations `str::len`, `str::starts_with` and slicing `s[n..]` are
  modelled on the underlying character list (`strLen`, `rustStartsWith`,
  `strDrop`).  All configuration keys and paths the program manipulates
  are treated as sequences of units; nothing below depends on the
  byte/char distinction.
* `enum ConfigItem` (main.rs 31-42) and the rule list of `struct Config`
  (main.rs 50-53) become inductive types.
* `Config::from_config_file` (main.rs 93-97) pours the entries of the
  `ConfigFile` hash map into a vector and runs `Vec::sort_by` with the
  comparator `b.0.len().cmp(&a.0.len())`, a stable sort by descending
  prefix length.  The iteration order of a Rust `HashMap` is unspecified
  (seeded per map instance), so the embedding takes the iteration order
  as an explicit input list; the guarantee of `Vec::sort_by` (sorted by
  the comparator, ties keep their input order) is realised by the stable
  insertion sort `sortByLenDesc`.
* `Config::get` (main.rs 121-128) is a first-match linear scan, i.e.
  `List.find?`.
* `Config::update_app` (main.rs 98-120) registers, in sorted order, a
  file service per Directory rule (local path defaulting to the prefix
  of the rule, index file defaulting to "index.html", listing defaulting to
  true) and a proxy resource per Proxy rule; `dispatch` models the
  outcome of routing one request through the registered services.
* the `proxy` handler (main.rs 136-160) re-resolves the rule for the
  request path via `Config::get` and panics unless it finds a Proxy rule;
  `proxy` below returns `ProxyResult.panic` in exactly that case.
* `ConfigItem` is decoded by serde with `#[serde(untagged)]`: the `Proxy`
  variant is tried first, then `Directory`; derived struct decoding
  ignores unknown fields.  `parseConfigItem` models this over a small
  JSON-object model (`Descriptor`).
-/

namespace StaticHost

/-- Rust `str::len` of a string, modelled as the length of its character
list (the program only ever compares lengths of configuration prefixes). -/
def strLen (s : String) : Nat := s.data.length

/-- Rust `s.starts_with(p)` (main.rs 123): a literal, unit-wise prefix
test, not path-segment aware. -/
def rustStartsWith (s p : String) : Bool := p.data.isPrefixOf s.data

/-- Rust slicing `s[n..]` by the length of a matched prefix: drop the
first `n` units of `s`. -/
def strDrop (s : String) (n : Nat) : String := ⟨s.data.drop n⟩

/-- Rust `enum ConfigItem` (main.rs 31-42): a rule descriptor is either a
proxy target or a directory with optional path, index file and listing
flag.  `PathBuf` fields are modelled as strings (`p.display().to_string()`
is how the code itself uses them, main.rs 105). -/
inductive ConfigItem where
  | Proxy (proxy_to : String)
  | Directory (path : Option String) (index : Option String) (dir : Option Bool)
deriving DecidableEq

/-- One entry of the rule table: URL prefix paired with its descriptor. -/
abbrev Rule := String × ConfigItem

/-- The order realised by the comparator `b.0.len().cmp(&a.0.len())`
(main.rs 95): `a` may stay before `b` when the prefix of `a` is at least
as long as the prefix of `b`. -/
def lenGE (a b : Rule) : Prop := strLen b.1 ≤ strLen a.1

instance : DecidableRel lenGE := fun a b => inferInstanceAs (Decidable (strLen b.1 ≤ strLen a.1))

/-- Insert a rule into a list sorted by descending prefix length, before
the first entry whose prefix is not strictly longer.  Together with
`sortByLenDesc` this is a stable sort by descending prefix length —
exactly the contract of `Vec::sort_by` with the comparator at main.rs 95. -/
def insertByLen (x : Rule) : List Rule → List Rule
  | [] => [x]
  | y :: ys => if strLen x.1 < strLen y.1 then y :: insertByLen x ys else x :: y :: ys

/-- Stable sort by descending prefix length, modelling
`items.sort_by(|a, b| b.0.len().cmp(&a.0.len()))` (main.rs 95) applied to
the entries of the hash map in their iteration order. -/
def sortByLenDesc : List Rule → List Rule
  | [] => []
  | x :: xs => insertByLen x (sortByLenDesc xs)

/-- Rust `struct Config` (main.rs 50-53): the ordered rule table. -/
structure Config where
  items : List Rule
deriving DecidableEq

/-- Rust `ConfigFile::from_directory` (main.rs 56-67): a bare directory path
becomes a single-entry map sending `/` to a Directory rule whose `path`
is that directory and whose other fields are absent. -/
def ConfigFile.from_directory (path : String) : List Rule :=
  [("/", ConfigItem.Directory (some path) none none)]

/-- Rust `Config::from_config_file` (main.rs 93-97): collect the map entries
(in the iteration order `entries`) and stable-sort them by descending
prefix length. -/
def Config.from_config_file (entries : List Rule) : Config :=
  ⟨sortByLenDesc entries⟩

/-- The match test of the scan in `Config::get` (main.rs 123):
`input.starts_with(url)`. -/
def ruleMatches (input : String) (r : Rule) : Bool := rustStartsWith input r.1

/-- Rust `Config::get` (main.rs 121-128): scan the rules in order and return
the first whose prefix is a literal prefix of `input`, or `None`. -/
def Config.get (c : Config) (input : String) : Option Rule :=
  c.items.find? (ruleMatches input)

/-- The target URL built by the `proxy` handler (main.rs 148-152):
`proxy_to + suffix`, followed by `?` and the query string exactly when
`query.len() > 0`. -/
def proxyTarget (proxy_to suffix query : String) : String :=
  if strLen query > 0 then proxy_to ++ suffix ++ "?" ++ query
  else proxy_to ++ suffix

/-- The dispatch outcome of one request routed through the services
registered by `Config::update_app`. -/
inductive DispatchOutcome where
  | noMatch
  | fileServe (local_path index_file : String) (allow_listing : Bool)
  | forward (target_url : String)
deriving DecidableEq

/-- One request routed through the rule table: the first rule whose
prefix matches the path wins (main.rs 121-128 / the registration order of
main.rs 98-120).  A Directory rule serves files with the defaults of
main.rs 102-111 (`path` defaults to the prefix itself, `index` to
`index.html`, `dir` to `true`); a Proxy rule forwards to
`proxy_to ++ suffix ++ optional query` where `suffix` is the request path
after the matched prefix (the `{suffix:.*}` capture of main.rs 115). -/
def dispatch (c : Config) (path query : String) : DispatchOutcome :=
  match c.get path with
  | none => DispatchOutcome.noMatch
  | some (url, ConfigItem.Directory p i d) =>
      DispatchOutcome.fileServe (p.getD url) (i.getD "index.html") (d.getD true)
  | some (url, ConfigItem.Proxy proxy_to) =>
      DispatchOutcome.forward (proxyTarget proxy_to (strDrop path (strLen url)) query)

/-- Result of the `proxy` handler body (main.rs 136-160): either a panic
(an unrecoverable fault, with the message of main.rs 146) or the target
URL it forwards to. -/
inductive ProxyResult where
  | panic (msg : String)
  | forward (target_url : String)
deriving DecidableEq

/-- The `proxy` handler (main.rs 136-160): re-resolve the request path
through `Config::get`; if that second lookup yields a Proxy rule, forward
to the reconstructed URL, otherwise `panic!("fail to proxy {url}")`.
`suffix` is the route capture handed in by the framework. -/
def proxy (c : Config) (path suffix query : String) : ProxyResult :=
  match c.get path with
  | some (_, ConfigItem.Proxy proxy_to) =>
      ProxyResult.forward (proxyTarget proxy_to suffix query)
  | _ => ProxyResult.panic ("fail to proxy " ++ path)

/-! ### Configuration decoding (serde `#[serde(untagged)]`) -/

/-- A JSON scalar, enough to model the fields a `ConfigItem` descriptor
can carry. -/
inductive JVal where
  | str (s : String)
  | bool (b : Bool)
  | num (n : Int)
deriving DecidableEq

/-- A JSON object as serde sees it: a field list (keys assumed distinct,
as produced by a JSON parser). -/
abbrev Descriptor := List (String × JVal)

/-- Field access during struct decoding. -/
def lookupField (d : Descriptor) (k : String) : Option JVal :=
  (d.find? (fun kv => kv.1 == k)).map Prod.snd

/-- Decoding the `Proxy` variant (main.rs 34-36): requires a string field
`proxy_to`; other fields are ignored (the serde default for unknown
fields). -/
def parseProxy (d : Descriptor) : Option ConfigItem :=
  match lookupField d "proxy_to" with
  | some (JVal.str s) => some (ConfigItem.Proxy s)
  | _ => none

/-- An optional string field: absent is fine, a non-string value is a
decode error. -/
def optStrField (d : Descriptor) (k : String) : Option (Option String) :=
  match lookupField d k with
  | none => some none
  | some (JVal.str s) => some (some s)
  | some _ => none

/-- An optional boolean field: absent is fine, a non-boolean value is a
decode error. -/
def optBoolField (d : Descriptor) (k : String) : Option (Option Bool) :=
  match lookupField d k with
  | none => some none
  | some (JVal.bool b) => some (some b)
  | some _ => none

/-- Decoding the `Directory` variant (main.rs 37-41): all three fields
optional; unknown fields ignored. -/
def parseDirectory (d : Descriptor) : Option ConfigItem := do
  let p ← optStrField d "path"
  let i ← optStrField d "index"
  let b ← optBoolField d "dir"
  pure (ConfigItem.Directory p i b)

/-- The serde `#[serde(untagged)]` decoding of `ConfigItem` (main.rs
31-42): try the `Proxy` variant first, then `Directory`; fail only when
the struct decoding of neither variant succeeds. -/
def parseConfigItem (d : Descriptor) : Option ConfigItem :=
  (parseProxy d).orElse (fun _ => parseDirectory d)

/-- Decoding a whole `ConfigFile` (main.rs 44-48): every key of the JSON
object is a prefix whose descriptor must decode; any failure fails the
whole file. -/
def parseConfigFile (raw : List (String × Descriptor)) : Option (List Rule) :=
  raw.mapM (fun kd => (parseConfigItem kd.2).map (fun it => (kd.1, it)))

/-- Rust `main` (main.rs 162-191) restricted to what it does with the decoded
configuration: a decode failure is reported and the process exits with an
error before any server is started; otherwise the rule table is built and
the server runs with it. -/
def mainOutcome (raw : List (String × Descriptor)) : Except String Config :=
  match parseConfigFile raw with
  | none => Except.error "config error"
  | some entries => Except.ok (Config.from_config_file entries)

/-! ### Sorting lemmas -/

theorem insertByLen_perm (x : Rule) (l : List Rule) :
    List.Perm (insertByLen x l) (x :: l) := by
  induction l with
  | nil => rfl
  | cons y ys ih =>
    by_cases h : strLen x.1 < strLen y.1
    · simpa [insertByLen, h] using ((ih.cons y).trans (List.Perm.swap x y ys))
    · simp [insertByLen, h]

theorem sortByLenDesc_perm (l : List Rule) : List.Perm (sortByLenDesc l) l := by
  induction l with
  | nil => rfl
  | cons x xs ih => exact (insertByLen_perm x (sortByLenDesc xs)).trans (ih.cons x)

theorem insertByLen_pairwise {x : Rule} {l : List Rule}
    (h : l.Pairwise lenGE) : (insertByLen x l).Pairwise lenGE := by
  induction l with
  | nil => simp [insertByLen, List.Pairwise.nil]
  | cons y ys ih =>
    rcases List.pairwise_cons.mp h with ⟨hy, hys⟩
    by_cases hxy : strLen x.1 < strLen y.1
    · rw [insertByLen, if_pos hxy]
      refine List.pairwise_cons.mpr ⟨?_, ih hys⟩
      intro z hz
      rcases List.mem_cons.mp ((insertByLen_perm x ys).mem_iff.mp hz) with rfl | hz3
      · exact Nat.le_of_lt hxy
      · exact hy z hz3
    · rw [insertByLen, if_neg hxy]
      refine List.pairwise_cons.mpr ⟨?_, h⟩
      intro z hz
      rcases List.mem_cons.mp hz with rfl | hz3
      · exact Nat.le_of_not_lt hxy
      · exact Nat.le_trans (hy z hz3) (Nat.le_of_not_lt hxy)

theorem sortByLenDesc_pairwise (l : List Rule) : (sortByLenDesc l).Pairwise lenGE := by
  induction l with
  | nil => exact List.Pairwise.nil
  | cons x xs ih => exact insertByLen_pairwise ih

/-! ### Prefix-matching lemmas -/

theorem rustStartsWith_iff {s p : String} :
    rustStartsWith s p = true ↔ ∃ t, s = p ++ t := by
  unfold rustStartsWith
  rw [List.isPrefixOf_iff_prefix]
  constructor
  · rintro ⟨t, ht⟩
    refine ⟨⟨t⟩, String.ext ?_⟩
    rw [String.data_append, ht]
  · rintro ⟨t, rfl⟩
    exact ⟨t.data, by rw [String.data_append]⟩

theorem prefix_append_strDrop {s p : String} (h : rustStartsWith s p = true) :
    p ++ strDrop s (strLen p) = s := by
  rcases rustStartsWith_iff.mp h with ⟨t, rfl⟩
  apply String.ext
  rw [String.data_append]
  show p.data ++ (p ++ t).data.drop (strLen p) = p.data ++ t.data
  rw [String.data_append, strLen, List.drop_left]

/-- Two distinct prefixes of equal length cannot both be literal prefixes
of the same path. -/
theorem not_both_prefix_of_ne {p₁ p₂ s : String} (hne : p₁ ≠ p₂)
    (hlen : strLen p₁ = strLen p₂) :
    ¬(rustStartsWith s p₁ = true ∧ rustStartsWith s p₂ = true) := by
  rintro ⟨h₁, h₂⟩
  apply hne
  apply String.ext
  have h₁' : p₁.data <+: s.data := List.isPrefixOf_iff_prefix.mp h₁
  have h₂' : p₂.data <+: s.data := List.isPrefixOf_iff_prefix.mp h₂
  exact (List.prefix_of_prefix_length_le h₁' h₂' (Nat.le_of_eq hlen)).eq_of_length hlen

/-- In a rule list sorted by descending prefix length, the first match is
a match of maximal prefix length. -/
theorem find?_max_of_pairwise {path : String} :
    ∀ {l : List Rule} {r : Rule}, l.Pairwise lenGE →
      l.find? (ruleMatches path) = some r →
      ∀ r' ∈ l, ruleMatches path r' = true → strLen r'.1 ≤ strLen r.1 := by
  intro l
  induction l with
  | nil => intro r _ h; simp at h
  | cons a t ih =>
    intro r hp hf r' hr' hm
    rcases List.pairwise_cons.mp hp with ⟨ha, ht⟩
    by_cases hpa : ruleMatches path a = true
    · rw [List.find?_cons_of_pos _ hpa] at hf
      cases hf
      rcases List.mem_cons.mp hr' with rfl | hr't
      · exact Nat.le_refl _
      · exact ha r' hr't
    · rw [List.find?_cons_of_neg _ hpa] at hf
      rcases List.mem_cons.mp hr' with rfl | hr't
      · exact absurd hm hpa
      · exact ih ht hf r' hr't hm

/-- Keys determine entries in a list whose key projection has no
duplicates. -/
theorem eq_of_keys_nodup {e : List Rule} (hnd : (e.map Prod.fst).Nodup) :
    ∀ {a b : Rule}, a ∈ e → b ∈ e → a.1 = b.1 → a = b := by
  induction e with
  | nil => intro a b ha; simp at ha
  | cons x t ih =>
    intro a b ha hb hk
    rw [List.map_cons, List.nodup_cons] at hnd
    rcases List.mem_cons.mp ha with rfl | hat
    · rcases List.mem_cons.mp hb with rfl | hbt
      · rfl
      · exact absurd (hk ▸ List.mem_map_of_mem Prod.fst hbt) hnd.1
    · rcases List.mem_cons.mp hb with rfl | hbt
      · exact absurd (hk ▸ List.mem_map_of_mem Prod.fst hat) hnd.1
      · exact ih hnd.2 hat hbt hk

/-- The URL built at main.rs 148-152, rephrased: the `query.len() > 0`
test agrees with testing the query against the empty string. -/
theorem proxyTarget_eq (proxy_to suffix query : String) :
    proxyTarget proxy_to suffix query
      = proxy_to ++ suffix ++ (if query = "" then "" else "?" ++ query) := by
  unfold proxyTarget
  by_cases hq : query = ""
  · subst hq
    rw [if_neg (by simp [strLen]), if_pos rfl, String.append_empty]
  · have hq' : strLen query > 0 := by
      rcases Nat.eq_zero_or_pos (strLen query) with h0 | h0
      · exact absurd (String.ext (List.eq_nil_of_length_eq_zero h0)) hq
      · exact h0
    rw [if_pos hq', if_neg hq, String.append_assoc]

/-! ### Claims -/

/-- C1: matching is longest-prefix-wins.  Construction sorts the rules by
descending prefix length; `Config::get` scans them in that order and
returns the first rule whose prefix is a literal prefix of the request
path, hence a match of maximal prefix length; in particular, for the
rules `/a ↦ Directory` and `/ab ↦ Proxy` (in either iteration order), a
request to `/abc` matches `/ab`, not `/a`. -/
theorem C1_longest_prefix_wins :
    (∀ entries : List Rule, ((Config.from_config_file entries).items).Pairwise lenGE)
    ∧ (∀ (c : Config) (path : String), c.get path = c.items.find? (ruleMatches path))
    ∧ (∀ (entries : List Rule) (path : String) (r : Rule),
        (Config.from_config_file entries).get path = some r →
        ruleMatches path r = true ∧
          ∀ r' ∈ entries, ruleMatches path r' = true → strLen r'.1 ≤ strLen r.1)
    ∧ (Config.from_config_file
        [("/a", ConfigItem.Directory none none none), ("/ab", ConfigItem.Proxy "https://up")]).get
        "/abc" = some ("/ab", ConfigItem.Proxy "https://up")
    ∧ (Config.from_config_file
        [("/ab", ConfigItem.Proxy "https://up"), ("/a", ConfigItem.Directory none none none)]).get
        "/abc" = some ("/ab", ConfigItem.Proxy "https://up") := by
  refine ⟨fun entries => sortByLenDesc_pairwise entries, fun c path => rfl, ?_, by decide, by decide⟩
  intro entries path r hf
  refine ⟨List.find?_some hf, ?_⟩
  intro r' hr' hm
  exact find?_max_of_pairwise (sortByLenDesc_pairwise entries) hf r'
    ((sortByLenDesc_perm entries).mem_iff.mpr hr') hm

/-- Witness for C1: the maximal-length-match conclusion instantiated at
the two-rule example of the spec. -/
theorem C1_witness :
    ruleMatches "/abc" ("/ab", ConfigItem.Proxy "https://up") = true ∧
      ∀ r' ∈ [("/a", ConfigItem.Directory none none none),
              ("/ab", ConfigItem.Proxy "https://up")],
        ruleMatches "/abc" r' = true →
          strLen r'.1 ≤ strLen ("/ab", ConfigItem.Proxy "https://up").1 :=
  C1_longest_prefix_wins.2.2.1
    [("/a", ConfigItem.Directory none none none), ("/ab", ConfigItem.Proxy "https://up")]
    "/abc" ("/ab", ConfigItem.Proxy "https://up") (by decide)

/-- C2: for a matched Proxy rule, the forwarded target URL is the target
base, then the suffix of the request path after the matched prefix, then
`?` and the query string exactly when the query string is non-empty (the
query is passed through verbatim and no trailing `?` is added when it is
empty); the matched prefix plus that suffix reassemble the request path.
Moreover the two URL-reconstruction examples of the spec hold. -/
theorem C2_proxy_url_reconstruction :
    (∀ (c : Config) (path query url proxy_to : String),
        c.get path = some (url, ConfigItem.Proxy proxy_to) →
        dispatch c path query = DispatchOutcome.forward
            (proxy_to ++ strDrop path (strLen url)
              ++ (if query = "" then "" else "?" ++ query))
          ∧ url ++ strDrop path (strLen url) = path)
    ∧ dispatch (Config.from_config_file [("/api", ConfigItem.Proxy "https://example.com/v1")])
        "/api/get" "ans=42" = DispatchOutcome.forward "https://example.com/v1/get?ans=42"
    ∧ dispatch (Config.from_config_file [("/api", ConfigItem.Proxy "https://example.com/v1")])
        "/api/get" "" = DispatchOutcome.forward "https://example.com/v1/get" := by
  refine ⟨?_, by decide, by decide⟩
  intro c path query url proxy_to hf
  constructor
  · rw [dispatch, hf]
    show DispatchOutcome.forward (proxyTarget proxy_to (strDrop path (strLen url)) query) = _
    rw [proxyTarget_eq]
  · have hf' : c.items.find? (ruleMatches path) = some (url, ConfigItem.Proxy proxy_to) := hf
    have hm : ruleMatches path (url, ConfigItem.Proxy proxy_to) = true := List.find?_some hf'
    exact prefix_append_strDrop hm

/-- Witness for C2: the general target-URL equation instantiated at the
`/api` example with a non-empty query. -/
theorem C2_witness :
    dispatch (Config.from_config_file [("/api", ConfigItem.Proxy "https://example.com/v1")])
        "/api/get" "ans=42" = DispatchOutcome.forward
          ("https://example.com/v1" ++ strDrop "/api/get" (strLen "/api")
            ++ (if ("ans=42" : String) = "" then "" else "?" ++ "ans=42"))
      ∧ "/api" ++ strDrop "/api/get" (strLen "/api") = "/api/get" :=
  C2_proxy_url_reconstruction.1
    (Config.from_config_file [("/api", ConfigItem.Proxy "https://example.com/v1")])
    "/api/get" "ans=42" "/api" "https://example.com/v1" (by decide)

/-- C3: prefix matching is a raw unit-wise `starts_with` test — a rule
matches exactly when its prefix is a literal string prefix of the path
(equivalently, the path is the prefix followed by some suffix); the rule
`Config::get` returns always passed this test; in particular a rule with
prefix `/api` matches the path `/api2/x`. -/
theorem C3_raw_prefix_matching :
    (∀ s p : String, rustStartsWith s p = true ↔ ∃ t, s = p ++ t)
    ∧ (∀ (c : Config) (path : String) (r : Rule),
        c.get path = some r → rustStartsWith path r.1 = true)
    ∧ (Config.from_config_file [("/api", ConfigItem.Proxy "https://up")]).get "/api2/x"
        = some ("/api", ConfigItem.Proxy "https://up") := by
  refine ⟨fun s p => rustStartsWith_iff, ?_, by decide⟩
  intro c path r hf
  have hf' : c.items.find? (ruleMatches path) = some r := hf
  have hm : ruleMatches path r = true := List.find?_some hf'
  exact hm

/-- Witness for C3: the literal-prefix test instantiated at the
`/api`-matches-`/api2/x` example. -/
theorem C3_witness :
    rustStartsWith "/api2/x" ("/api", ConfigItem.Proxy "https://up").1 = true :=
  C3_raw_prefix_matching.2.1
    (Config.from_config_file [("/api", ConfigItem.Proxy "https://up")]) "/api2/x"
    ("/api", ConfigItem.Proxy "https://up") (by decide)

/-- C4 counterexample: a descriptor carrying both `proxy_to` and `path`
keys does NOT fail — untagged decoding tries the `Proxy` variant first
and ignores the unknown `path` field — and a descriptor with neither
shape of key decodes as an all-default `Directory`; a configuration
containing both kinds of descriptor builds successfully and the server
starts, contradicting the claimed `ConfigError`. -/
theorem C4_counterexample :
    parseConfigItem [("proxy_to", JVal.str "https://u"), ("path", JVal.str "/d")]
        = some (ConfigItem.Proxy "https://u")
    ∧ parseConfigItem [] = some (ConfigItem.Directory none none none)
    ∧ mainOutcome [("/x", [("proxy_to", JVal.str "https://u"), ("path", JVal.str "/d")]), ("/y", [])]
        = Except.ok (Config.from_config_file
            [("/x", ConfigItem.Proxy "https://u"), ("/y", ConfigItem.Directory none none none)]) :=
  ⟨rfl, rfl, rfl⟩

/-- C4 as amended: a descriptor with a string `proxy_to` field is always
accepted as a Proxy rule, whatever other fields it carries; a descriptor
with none of the recognised keys is accepted as an all-default Directory
rule; decoding fails — and then the process reports a config error and
does not start serving — exactly when a descriptor fits neither variant,
e.g. one whose `path` field is not a string and which has no string
`proxy_to`. -/
theorem C4_amended_malformed_config :
    (∀ (d : Descriptor) (u : String), lookupField d "proxy_to" = some (JVal.str u) →
        parseConfigItem d = some (ConfigItem.Proxy u))
    ∧ (∀ d : Descriptor, lookupField d "proxy_to" = none → lookupField d "path" = none →
        lookupField d "index" = none → lookupField d "dir" = none →
        parseConfigItem d = some (ConfigItem.Directory none none none))
    ∧ parseConfigItem [("path", JVal.bool true)] = none
    ∧ (∀ raw : List (String × Descriptor), parseConfigFile raw = none →
        mainOutcome raw = Except.error "config error")
    ∧ mainOutcome [("/x", [("path", JVal.bool true)])] = Except.error "config error" := by
  refine ⟨?_, ?_, rfl, ?_, rfl⟩
  · intro d u hu
    rw [parseConfigItem, parseProxy, hu]
    rfl
  · intro d h1 h2 h3 h4
    rw [parseConfigItem, parseProxy, h1]
    show parseDirectory d = _
    rw [parseDirectory, optStrField, h2, optStrField, h3, optBoolField, h4]
    rfl
  · intro raw hr
    rw [mainOutcome, hr]

/-- Witness for the amended C4: both general acceptance conclusions and
the error propagation instantiated at concrete descriptors. -/
theorem C4_witness :
    parseConfigItem [("proxy_to", JVal.str "https://u"), ("index", JVal.str "i.html")]
        = some (ConfigItem.Proxy "https://u")
    ∧ parseConfigItem [("other", JVal.num 3)] = some (ConfigItem.Directory none none none)
    ∧ mainOutcome [("/x", [("dir", JVal.str "yes")])] = Except.error "config error" :=
  ⟨C4_amended_malformed_config.1 [("proxy_to", JVal.str "https://u"), ("index", JVal.str "i.html")]
      "https://u" rfl,
   C4_amended_malformed_config.2.1 [("other", JVal.num 3)] rfl rfl rfl rfl,
   C4_amended_malformed_config.2.2.2.1 [("/x", [("dir", JVal.str "yes")])] rfl⟩

/-- C5 counterexample: the same mapping (two rules with equal-length
prefixes `/a` and `/b`, a permutation of each other) handed over in two
different hash-map iteration orders — which Rust does not make
deterministic — builds two different rule orders, because the stable sort
keeps equal-length prefixes in their input order. -/
theorem C5_counterexample :
    List.Perm [(("/a" : String), ConfigItem.Proxy "https://u"), ("/b", ConfigItem.Proxy "https://v")]
      [("/b", ConfigItem.Proxy "https://v"), ("/a", ConfigItem.Proxy "https://u")]
    ∧ Config.from_config_file
        [("/a", ConfigItem.Proxy "https://u"), ("/b", ConfigItem.Proxy "https://v")]
      ≠ Config.from_config_file
        [("/b", ConfigItem.Proxy "https://v"), ("/a", ConfigItem.Proxy "https://u")] := by
  decide

/-- C5 as amended: construction is a stable descending-length sort of the
iteration order of the hash map.  The built rule list is always a
permutation of the mapping and sorted by descending prefix length, and
two builds from the same mapping agree whenever all prefix lengths are
distinct; the relative order of equal-length prefixes, however, follows
the iteration order, which Rust leaves unspecified. -/
theorem C5_amended_determinism :
    (∀ entries : List Rule,
        List.Perm (Config.from_config_file entries).items entries
        ∧ ((Config.from_config_file entries).items).Pairwise lenGE)
    ∧ (∀ e₁ e₂ : List Rule, List.Perm e₁ e₂ →
        (e₁.map (fun r => strLen r.1)).Nodup →
        Config.from_config_file e₁ = Config.from_config_file e₂) := by
  refine ⟨fun entries => ⟨sortByLenDesc_perm entries, sortByLenDesc_pairwise entries⟩, ?_⟩
  intro e₁ e₂ hp hnd
  have p₁ := sortByLenDesc_perm e₁
  have p₂ := sortByLenDesc_perm e₂
  have p₁₂ : List.Perm (sortByLenDesc e₁) (sortByLenDesc e₂) := p₁.trans (hp.trans p₂.symm)
  have hnd₁ : ((sortByLenDesc e₁).map (fun r => strLen r.1)).Nodup :=
    ((p₁.map (fun r => strLen r.1)).nodup_iff).mpr hnd
  have hnd₂ : ((sortByLenDesc e₂).map (fun r => strLen r.1)).Nodup :=
    ((p₂.map (fun r => strLen r.1)).nodup_iff).mpr (((hp.map (fun r => strLen r.1)).nodup_iff).mp hnd)
  have strict : ∀ l : List Rule, l.Pairwise lenGE →
      ((l.map (fun r => strLen r.1)).Nodup) →
      l.Pairwise (fun a b : Rule => strLen b.1 < strLen a.1) := by
    intro l hpair hndl
    have hne : l.Pairwise (fun a b : Rule => strLen a.1 ≠ strLen b.1) :=
      List.pairwise_map.mp hndl
    exact (hpair.and hne).imp (fun h => Nat.lt_of_le_of_ne h.1 (Ne.symm h.2))
  haveI : IsAntisymm Rule (fun a b : Rule => strLen b.1 < strLen a.1) :=
    ⟨fun a b h₁ h₂ => absurd h₁ (Nat.lt_asymm h₂)⟩
  have : sortByLenDesc e₁ = sortByLenDesc e₂ :=
    List.eq_of_perm_of_sorted p₁₂
      (strict _ (sortByLenDesc_pairwise e₁) hnd₁)
      (strict _ (sortByLenDesc_pairwise e₂) hnd₂)
  exact congrArg Config.mk this

/-- Witness for the amended C5: two iteration orders of a mapping whose
prefix lengths are all distinct build the same rule table. -/
theorem C5_witness :
    Config.from_config_file
        [("/a", ConfigItem.Proxy "https://u"), ("/bb", ConfigItem.Directory none none none)]
      = Config.from_config_file
        [("/bb", ConfigItem.Directory none none none), ("/a", ConfigItem.Proxy "https://u")] :=
  C5_amended_determinism.2
    [("/a", ConfigItem.Proxy "https://u"), ("/bb", ConfigItem.Directory none none none)]
    [("/bb", ConfigItem.Directory none none none), ("/a", ConfigItem.Proxy "https://u")]
    (by decide) (by decide)

/-- C6: the `proxy` handler resolves the request path a second time
through `Config::get`; it panics (message `fail to proxy` plus the path)
exactly when that second lookup yields anything other than a Proxy rule —
a Directory rule or no match — and otherwise forwards to the
reconstructed URL. -/
theorem C6_proxy_panics_on_non_proxy :
    ∀ (c : Config) (path suffix query : String),
      (proxy c path suffix query = ProxyResult.panic ("fail to proxy " ++ path) ↔
        ∀ url proxy_to, c.get path ≠ some (url, ConfigItem.Proxy proxy_to))
      ∧ (∀ url proxy_to, c.get path = some (url, ConfigItem.Proxy proxy_to) →
          proxy c path suffix query
            = ProxyResult.forward (proxyTarget proxy_to suffix query)) := by
  intro c path suffix query
  rcases hg : c.get path with _ | ⟨url, item⟩
  · refine ⟨⟨fun _ url pt h => Option.noConfusion h, fun _ => ?_⟩, ?_⟩
    · rw [proxy, hg]
    · intro url pt h
      exact Option.noConfusion h
  · cases item with
    | Proxy pt =>
      refine ⟨⟨fun hpanic => ?_, fun hno => absurd rfl (hno url pt)⟩, ?_⟩
      · rw [proxy, hg] at hpanic
        exact ProxyResult.noConfusion hpanic
      · intro url' pt' h
        rw [Option.some.injEq, Prod.mk.injEq] at h
        obtain ⟨rfl, h2⟩ := h
        rw [ConfigItem.Proxy.injEq] at h2
        subst h2
        rw [proxy, hg]
    | Directory p i d =>
      refine ⟨⟨fun _ url' pt' h => ?_, fun _ => by rw [proxy, hg]⟩, ?_⟩
      · rw [Option.some.injEq, Prod.mk.injEq] at h
        exact ConfigItem.noConfusion h.2
      · intro url' pt' h
        rw [Option.some.injEq, Prod.mk.injEq] at h
        exact ConfigItem.noConfusion h.2

/-- Witness for C6: a concrete table whose only rule for `/api/x` is a
Proxy rule makes the handler forward, and one whose match is a Directory
rule makes it panic. -/
theorem C6_witness :
    proxy (Config.from_config_file [("/api", ConfigItem.Proxy "https://u")]) "/api/x" "/x" "q"
        = ProxyResult.forward (proxyTarget "https://u" "/x" "q")
    ∧ proxy (Config.from_config_file [("/a", ConfigItem.Directory none none none)]) "/abc" "bc" ""
        = ProxyResult.panic ("fail to proxy " ++ "/abc") :=
  ⟨(C6_proxy_panics_on_non_proxy
      (Config.from_config_file [("/api", ConfigItem.Proxy "https://u")]) "/api/x" "/x" "q").2
      "/api" "https://u" (by decide),
   (C6_proxy_panics_on_non_proxy
      (Config.from_config_file [("/a", ConfigItem.Directory none none none)]) "/abc" "bc" "").1.mpr
      (by intro url pt h
          have hv : (Config.from_config_file
              [("/a", ConfigItem.Directory none none none)]).get "/abc"
                = some ("/a", ConfigItem.Directory none none none) := by decide
          rw [hv] at h
          cases h)⟩

/-- C7: a bare directory path `D` collapses to exactly one rule, prefix
`/`, Directory with local path `D`; every request whose path starts with
`/` is served from `D` with index file `index.html` and listing enabled. -/
theorem C7_default_directory_collapse :
    ∀ D : String,
      Config.from_config_file (ConfigFile.from_directory D)
          = ⟨[("/", ConfigItem.Directory (some D) none none)]⟩
      ∧ ∀ path query : String, rustStartsWith path "/" = true →
          dispatch (Config.from_config_file (ConfigFile.from_directory D)) path query
            = DispatchOutcome.fileServe D "index.html" true := by
  intro D
  refine ⟨rfl, ?_⟩
  intro path query h
  have hm : ruleMatches path ("/", ConfigItem.Directory (some D) none none) = true := h
  rw [dispatch]
  show (match (Config.from_config_file (ConfigFile.from_directory D)).get path with
    | none => DispatchOutcome.noMatch
    | some (url, ConfigItem.Directory p i d) =>
        DispatchOutcome.fileServe (p.getD url) (i.getD "index.html") (d.getD true)
    | some (url, ConfigItem.Proxy proxy_to) =>
        DispatchOutcome.forward (proxyTarget proxy_to (strDrop path (strLen url)) query))
    = DispatchOutcome.fileServe D "index.html" true
  have hget : (Config.from_config_file (ConfigFile.from_directory D)).get path
      = some ("/", ConfigItem.Directory (some D) none none) := by
    show List.find? (ruleMatches path) [("/", ConfigItem.Directory (some D) none none)]
      = some ("/", ConfigItem.Directory (some D) none none)
    rw [List.find?_cons_of_pos _ hm]
  rw [hget]
  rfl

/-- Witness for C7: the collapse and the served defaults at a concrete
directory and request. -/
theorem C7_witness :
    Config.from_config_file (ConfigFile.from_directory "/srv/www")
        = ⟨[("/", ConfigItem.Directory (some "/srv/www") none none)]⟩
    ∧ dispatch (Config.from_config_file (ConfigFile.from_directory "/srv/www")) "/index" ""
        = DispatchOutcome.fileServe "/srv/www" "index.html" true :=
  ⟨(C7_default_directory_collapse "/srv/www").1,
   (C7_default_directory_collapse "/srv/www").2 "/index" "" (by decide)⟩

/-- C8: when a Directory rule matches, the dispatch outcome carries the
local path defaulting to the prefix of the rule itself, the index file
defaulting to `index.html`, and listing defaulting to enabled. -/
theorem C8_directory_defaults :
    ∀ (c : Config) (path query url : String) (p i : Option String) (d : Option Bool),
      c.get path = some (url, ConfigItem.Directory p i d) →
      dispatch c path query
          = DispatchOutcome.fileServe (p.getD url) (i.getD "index.html") (d.getD true)
        ∧ (p = none → p.getD url = url)
        ∧ (i = none → i.getD "index.html" = "index.html")
        ∧ (d = none → d.getD true = true) := by
  intro c path query url p i d hf
  refine ⟨?_, ?_, ?_, ?_⟩
  · rw [dispatch, hf]
  · rintro rfl; rfl
  · rintro rfl; rfl
  · rintro rfl; rfl

/-- Witness for C8: a matched all-default Directory rule serves the
prefix itself with `index.html` and listing enabled. -/
theorem C8_witness :
    dispatch (Config.from_config_file [("/a", ConfigItem.Directory none none none)]) "/a/x" ""
      = DispatchOutcome.fileServe ((none : Option String).getD "/a")
          ((none : Option String).getD "index.html") ((none : Option Bool).getD true) :=
  (C8_directory_defaults (Config.from_config_file [("/a", ConfigItem.Directory none none none)])
    "/a/x" "" "/a" none none none (by decide)).1

/-- C9: the match result does not depend on the tie-break among
equal-length prefixes.  Two distinct prefixes of equal length can never
both match one path, so any two orderings of a mapping with distinct
prefixes that are both sorted by descending prefix length make
`Config::get` return the same rule for every request path. -/
theorem C9_tiebreak_irrelevant :
    (∀ p₁ p₂ s : String, p₁ ≠ p₂ → strLen p₁ = strLen p₂ →
        ¬(rustStartsWith s p₁ = true ∧ rustStartsWith s p₂ = true))
    ∧ ∀ (e l₁ l₂ : List Rule) (path : String),
        (e.map Prod.fst).Nodup →
        List.Perm l₁ e → List.Perm l₂ e →
        l₁.Pairwise lenGE → l₂.Pairwise lenGE →
        Config.get ⟨l₁⟩ path = Config.get ⟨l₂⟩ path := by
  refine ⟨fun p₁ p₂ s => not_both_prefix_of_ne, ?_⟩
  intro e l₁ l₂ path hnd hp₁ hp₂ hs₁ hs₂
  show l₁.find? (ruleMatches path) = l₂.find? (ruleMatches path)
  rcases h₁ : l₁.find? (ruleMatches path) with _ | r₁
  · rcases h₂ : l₂.find? (ruleMatches path) with _ | r₂
    · rfl
    · have hm₂ : ruleMatches path r₂ = true := List.find?_some h₂
      have hr₂ : r₂ ∈ l₁ := hp₁.mem_iff.mpr (hp₂.mem_iff.mp (List.mem_of_find?_eq_some h₂))
      exact absurd hm₂ (List.find?_eq_none.mp h₁ r₂ hr₂)
  · have hm₁ : ruleMatches path r₁ = true := List.find?_some h₁
    have hr₁l₁ : r₁ ∈ l₁ := List.mem_of_find?_eq_some h₁
    rcases h₂ : l₂.find? (ruleMatches path) with _ | r₂
    · have hr₁ : r₁ ∈ l₂ := hp₂.mem_iff.mpr (hp₁.mem_iff.mp hr₁l₁)
      exact absurd hm₁ (List.find?_eq_none.mp h₂ r₁ hr₁)
    · have hm₂ : ruleMatches path r₂ = true := List.find?_some h₂
      have hr₂l₂ : r₂ ∈ l₂ := List.mem_of_find?_eq_some h₂
      have hr₁l₂ : r₁ ∈ l₂ := hp₂.mem_iff.mpr (hp₁.mem_iff.mp hr₁l₁)
      have hr₂l₁ : r₂ ∈ l₁ := hp₁.mem_iff.mpr (hp₂.mem_iff.mp hr₂l₂)
      have hle₁ : strLen r₂.1 ≤ strLen r₁.1 := find?_max_of_pairwise hs₁ h₁ r₂ hr₂l₁ hm₂
      have hle₂ : strLen r₁.1 ≤ strLen r₂.1 := find?_max_of_pairwise hs₂ h₂ r₁ hr₁l₂ hm₁
      have hkey : r₁.1 = r₂.1 := by
        by_contra hne
        exact not_both_prefix_of_ne hne (Nat.le_antisymm hle₂ hle₁) ⟨hm₁, hm₂⟩
      have heq : r₁ = r₂ :=
        eq_of_keys_nodup hnd (hp₁.mem_iff.mp hr₁l₁) (hp₂.mem_iff.mp hr₂l₂) hkey
      rw [heq]

/-- Witness for C9: both descending-length orderings of a two-rule
mapping with equal-length prefixes give the same match for `/ab`. -/
theorem C9_witness :
    Config.get ⟨[("/a", ConfigItem.Proxy "https://u"), ("/b", ConfigItem.Proxy "https://v")]⟩ "/ab"
      = Config.get ⟨[("/b", ConfigItem.Proxy "https://v"), ("/a", ConfigItem.Proxy "https://u")]⟩
          "/ab" :=
  C9_tiebreak_irrelevant.2
    [("/a", ConfigItem.Proxy "https://u"), ("/b", ConfigItem.Proxy "https://v")]
    [("/a", ConfigItem.Proxy "https://u"), ("/b", ConfigItem.Proxy "https://v")]
    [("/b", ConfigItem.Proxy "https://v"), ("/a", ConfigItem.Proxy "https://u")]
    "/ab" (by decide) (by decide) (by decide) (by decide) (by decide)

/-- C10: a rule whose prefix is the empty string passes through
construction unvalidated, the empty prefix matches every request path,
so a rule set containing it can never produce a no-match outcome; and a
configuration file using the empty-string key decodes and starts the
server. -/
theorem C10_empty_prefix_always_matches :
    (∀ (entries : List Rule) (item : ConfigItem) (path query : String),
        ("", item) ∈ entries →
        ((Config.from_config_file entries).get path).isSome = true
        ∧ dispatch (Config.from_config_file entries) path query ≠ DispatchOutcome.noMatch)
    ∧ mainOutcome [("", [("proxy_to", JVal.str "https://u")])]
        = Except.ok (Config.from_config_file [("", ConfigItem.Proxy "https://u")]) := by
  refine ⟨?_, rfl⟩
  intro entries item path query hmem
  have hmem' : ("", item) ∈ sortByLenDesc entries :=
    (sortByLenDesc_perm entries).mem_iff.mpr hmem
  have hmatch : ruleMatches path ("", item) = true := by
    show List.isPrefixOf ("" : String).data path.data = true
    exact List.isPrefixOf_nil_left
  have hsome : ((sortByLenDesc entries).find? (ruleMatches path)).isSome = true :=
    List.find?_isSome.mpr ⟨("", item), hmem', hmatch⟩
  refine ⟨hsome, ?_⟩
  intro hdisp
  rw [dispatch] at hdisp
  rcases hg : (Config.from_config_file entries).get path with _ | ⟨url, it⟩
  · have : ((Config.from_config_file entries).get path).isSome = true := hsome
    rw [hg] at this
    exact Bool.noConfusion this
  · rw [hg] at hdisp
    cases it with
    | Proxy pt => exact DispatchOutcome.noConfusion hdisp
    | Directory p i d => exact DispatchOutcome.noConfusion hdisp

/-- Witness for C10: a table with an empty-string prefix matches the
path `/zzz` that matches no other rule. -/
theorem C10_witness :
    ((Config.from_config_file
        [("", ConfigItem.Directory none none none), ("/a", ConfigItem.Proxy "https://u")]).get
        "/zzz").isSome = true
    ∧ dispatch (Config.from_config_file
        [("", ConfigItem.Directory none none none), ("/a", ConfigItem.Proxy "https://u")])
        "/zzz" "" ≠ DispatchOutcome.noMatch :=
  C10_empty_prefix_always_matches.1
    [("", ConfigItem.Directory none none none), ("/a", ConfigItem.Proxy "https://u")]
    (ConfigItem.Directory none none none) "/zzz" "" (by decide)

end StaticHost
